import Mathlib

/-!
# Verification of the Telegram broadcaster core (src/src/app/page.tsx)

Shallow embedding of the broadcast engine, discovery engine, list
management, chat-registry refresh, activity log and persistence logic of
the single-page application, together with proofs of the specified
properties.  JavaScript numbers holding chat ids and counters are modelled
as `Int`/`Nat`; the one fractional computation (`Math.round` in the
per-list stats update) is modelled over `ℚ`.
-/

namespace TgBroadcaster

/-- `type` field of a chat: 'group' | 'supergroup' | 'channel' | 'private'. -/
inductive ChatType where
  | group
  | supergroup
  | channel
  | private_
deriving DecidableEq, Repr

/-- The `Chat` interface of page.tsx (tracked chat). -/
structure Chat where
  id : Int
  title : String
  type : ChatType
  username : Option String := none
  memberCount : Option Int := none
  botKicked : Option Bool := none
deriving DecidableEq, Repr

/-- `stats` record of a `ChatList`. Counters are JS numbers, modelled as `Int`. -/
structure ListStats where
  sent : Int
  failed : Int
  lastBroadcast : Option String
deriving DecidableEq, Repr

/-- The `ChatList` interface of page.tsx. -/
structure ChatList where
  id : String
  name : String
  color : String
  icon : String
  chatIds : List Int
  parentId : Option String
  stats : ListStats
deriving DecidableEq, Repr

/-- `LogEntry` type field. -/
inductive LogType where
  | info
  | success
  | error
  | warning
deriving DecidableEq, Repr

/-- The `LogEntry` interface of page.tsx. -/
structure LogEntry where
  message : String
  type : LogType
  timestamp : String
deriving DecidableEq, Repr

/-- `SAFETY_CONFIG.BATCH_SIZE` in page.tsx. -/
def BATCH_SIZE : Nat := 30

/-! JS string primitives used by the component, modelled over the character
sequence of the string (the Lean core `String` operations are equivalent but
are defined through `Substring` position recursion, which a kernel witness
cannot evaluate). -/

/-- JS `s.trim()`: strip leading and trailing whitespace. -/
def jsTrim (s : String) : String :=
  ⟨((s.data.dropWhile Char.isWhitespace).reverse.dropWhile Char.isWhitespace).reverse⟩

/-- JS `s.toLowerCase()` (ASCII case folding suffices here). -/
def jsToLower (s : String) : String := ⟨s.data.map Char.toLower⟩

/-- JS `s.startsWith(pre)`. -/
def jsStartsWith (s pre : String) : Bool := pre.data.isPrefixOf s.data

/-! ## Activity log (`addLog`)

`addLog` runs `setLogs(prev => [...prev.slice(-200), { message, type, timestamp }])`.
`prev.slice(-200)` keeps the last `min(length, 200)` entries of `prev` and the
new entry is appended after them. -/

/-- JS `xs.slice(-n)`: the last `min(xs.length, n)` elements of `xs`. -/
def jsSliceLast (n : Nat) (xs : List LogEntry) : List LogEntry :=
  xs.drop (xs.length - n)

/-- `addLog` from page.tsx lines 165-168: `[...prev.slice(-200), entry]`. -/
def addLog (prev : List LogEntry) (entry : LogEntry) : List LogEntry :=
  jsSliceLast 200 prev ++ [entry]

/-! ## Broadcast engine (`broadcastMessage`, lines 652-738)

The loop `for (let i = 0; i < chatIds.length; i += BATCH_SIZE)` takes
`chatIds.slice(i, i + BATCH_SIZE)` per iteration; we model it as chunking
the target list.  Per-chat network outcomes are abstracted as a function
`outcome : Int → Bool` (`true` = the `sendMessage` call succeeded). -/

/-- Successive slices `xs.slice(i, i+n)` of the batching loop. -/
def chunkList (n : Nat) (xs : List Int) : List (List Int) :=
  if h : xs = [] ∨ n = 0 then []
  else xs.take n :: chunkList n (xs.drop n)
termination_by xs.length
decreasing_by
  push_neg at h
  have hx : 0 < xs.length := List.length_pos.mpr h.1
  simp only [List.length_drop]
  omega

/-- Fold of one batch: each success increments `sent`, each failure `failed`. -/
def processBatch (outcome : Int → Bool) (acc : Nat × Nat) (batch : List Int) :
    Nat × Nat :=
  batch.foldl (fun p c => if outcome c then (p.1 + 1, p.2) else (p.1, p.2 + 1)) acc

/-- Folding all batches starting from `(0, 0)`. -/
def runBatches (outcome : Int → Bool) (batches : List (List Int)) : Nat × Nat :=
  batches.foldl (processBatch outcome) (0, 0)

/-- Observable outcome of one `broadcastMessage` invocation:
the batches formed, the `sendMessage` targets attempted in order,
the final counters, and whether the guard let the broadcast start. -/
structure BroadcastOutcome where
  batches : List (List Int)
  calls : List Int
  sent : Nat
  failed : Nat
  started : Bool
deriving Repr

/-- `broadcastMessage` from page.tsx lines 652-710: guard
`if (!message.trim() || selectedChats.size === 0) return;`, then batched
sends with per-chat counters. `targets` is `Array.from(selectedChats)`. -/
def broadcastMessage (message : String) (targets : List Int)
    (outcome : Int → Bool) : BroadcastOutcome :=
  if jsTrim message = "" ∨ targets = [] then
    { batches := [], calls := [], sent := 0, failed := 0, started := false }
  else
    let batches := chunkList BATCH_SIZE targets
    let counts := runBatches outcome batches
    { batches := batches
      calls := batches.flatten
      sent := counts.1
      failed := counts.2
      started := true }

/-! ## List management (lines 424-614) -/

/-- JS `Set.add` on a set kept as an insertion-ordered duplicate-free list. -/
def setInsert (s : List Int) (x : Int) : List Int :=
  if x ∈ s then s else s ++ [x]

/-- `deleteList` from page.tsx lines 446-463: computes the ids of the DIRECT
children (`lists.filter(l => l.parentId === listId)`), then removes the list
and those children from the collection and from the selected and excluded
sets.  Returns `(lists, selectedLists, excludedLists)` after the call. -/
def deleteList (lists : List ChatList) (selectedLists excludedLists : List String)
    (listId : String) : List ChatList × List String × List String :=
  let childIds := (lists.filter (fun l => l.parentId = some listId)).map (fun l => l.id)
  ( lists.filter (fun l => l.id ≠ listId ∧ l.id ∉ childIds),
    selectedLists.filter (fun id => id ≠ listId ∧ id ∉ childIds),
    excludedLists.filter (fun id => id ≠ listId ∧ id ∉ childIds) )

/-- `getAllChatIds` inner closure of `getChatsFromLists` (lines 541-547):
a list's own `chatIds` followed by the recursively collected ids of every
list whose `parentId` points at it.  The JS recursion has no termination
guard (it would overflow the stack on a `parentId` cycle); the embedding
makes the recursion depth explicit through `fuel`. -/
def getAllChatIds (lists : List ChatList) : Nat → String → List Int
  | 0, _ => []
  | fuel + 1, listId =>
    match lists.find? (fun l => l.id = listId) with
    | none => []
    | some list =>
      let childLists := lists.filter (fun l => l.parentId = some listId)
      list.chatIds ++ childLists.flatMap (fun child => getAllChatIds lists fuel child.id)

/-- `getChatsFromLists` (lines 539-560): insert every id resolved from a
selected list into a set, then delete every id resolved from an excluded
list, and return the set as a list. -/
def getChatsFromLists (lists : List ChatList) (selectedLists excludedLists : List String)
    (fuel : Nat) : List Int :=
  let included := selectedLists.foldl
    (fun acc lid => (getAllChatIds lists fuel lid).foldl setInsert acc) []
  excludedLists.foldl
    (fun acc lid => (getAllChatIds lists fuel lid).foldl
      (fun s x => s.filter (fun y => y ≠ x)) acc) included

/-- `listId` is reachable from `ancestorId` by following `parentId` links
upward (i.e. the list is a descendant of the ancestor), checked to a given
depth. -/
def isDescendantOf (lists : List ChatList) : Nat → String → String → Bool
  | 0, _, _ => false
  | fuel + 1, listId, ancestorId =>
    match lists.find? (fun l => l.id = listId) with
    | none => false
    | some l =>
      match l.parentId with
      | none => false
      | some p => p = ancestorId || isDescendantOf lists fuel p ancestorId

/-! ## Per-list stats update after a broadcast (lines 712-735) -/

/-- JS `Math.round` on a non-negative value: floor of `q + 1/2`
(JS rounds halves up). -/
def jsMathRound (q : ℚ) : ℤ := ⌊q + 1 / 2⌋

/-- The update applied to one list after a broadcast (lines 714-735):
`sentFromList = chatIds.filter(id => listChatIds.has(id))`; when non-empty,
`listFailed = Math.round(listSent * (failed / total))`,
`listSuccess = listSent - listFailed`, both added to the cumulative stats
and `lastBroadcast` set; otherwise the list is returned unchanged. -/
def updateListStats (chatIds : List Int) (failed total : Nat) (now : String)
    (list : ChatList) : ChatList :=
  let sentFromList := chatIds.filter (fun id => id ∈ list.chatIds)
  if sentFromList.length > 0 then
    let listSent : Int := sentFromList.length
    let listFailed : Int := jsMathRound ((listSent : ℚ) * ((failed : ℚ) / (total : ℚ)))
    let listSuccess := listSent - listFailed
    { list with stats :=
      { sent := list.stats.sent + listSuccess
        failed := list.stats.failed + listFailed
        lastBroadcast := some now } }
  else list

/-- `setLists(prev => prev.map(...))` of lines 714-735 over the whole
collection. -/
def updateAllListStats (chatIds : List Int) (failed total : Nat) (now : String)
    (lists : List ChatList) : List ChatList :=
  lists.map (updateListStats chatIds failed total now)

/-! ## Discovery engine (`discoverChats`, lines 767-875) -/

/-- The `chat` object carried by an update (raw Telegram shape). -/
structure RawChat where
  id : Int
  type : String
  title : Option String := none
  first_name : Option String := none
  username : Option String := none
deriving DecidableEq, Repr

/-- The update shapes `discoverChats` inspects (`allowed_updates`). -/
inductive Update where
  | message (chat : RawChat) (text : Option String)
  | channel_post (chat : RawChat) (text : Option String)
  | my_chat_member (chat : RawChat) (new_status : Option String)
deriving DecidableEq, Repr

/-- `source` field of a `DiscoveredChat`. -/
inductive Source where
  | message
  | register_command
  | bot_added
deriving DecidableEq, Repr

/-- The `DiscoveredChat` interface of page.tsx. -/
structure DiscoveredChat where
  id : Int
  title : String
  type : String
  username : Option String
  source : Source
deriving DecidableEq, Repr

/-- JS `a || b` on an optional string: `undefined` and `""` are falsy. -/
def jsOrStr (a : Option String) (b : String) : String :=
  match a with
  | some s => if s = "" then b else s
  | none => b

/-- `chat.title || chat.first_name || chat.username || "Chat " + id`. -/
def chatDisplayTitle (chat : RawChat) : String :=
  jsOrStr chat.title (jsOrStr chat.first_name
    (jsOrStr chat.username ("Chat " ++ toString chat.id)))

/-- Classification step of the scan loop (lines 798-823): which chat an
update points at, and its source; `none` when the update yields no chat
(membership change to a status other than member/administrator). -/
def classifyUpdate (u : Update) : Option (RawChat × Source) :=
  match u with
  | .message chat text =>
    let t := jsToLower (text.getD "")
    some (chat, if jsStartsWith t "/register" then Source.register_command
                else Source.message)
  | .channel_post chat text =>
    let t := jsToLower (text.getD "")
    some (chat, if jsStartsWith t "/register" then Source.register_command
                else Source.message)
  | .my_chat_member chat new_status =>
    if new_status = some "member" ∨ new_status = some "administrator" then
      some (chat, Source.bot_added)
    else none

/-- Body of the `for (const update of updates)` loop (lines 798-839) acting
on the accumulated candidate map (kept as an insertion-ordered list): skip
known chats, skip ids already collected, skip private chats unless sourced
from `/register`, otherwise append the candidate. -/
def scanStep (existingChatIds : List Int) (acc : List DiscoveredChat)
    (u : Update) : List DiscoveredChat :=
  match classifyUpdate u with
  | none => acc
  | some (chat, source) =>
    if chat.id ∈ existingChatIds ∨ acc.any (fun c => c.id = chat.id) then acc
    else if chat.type = "private" ∧ source ≠ Source.register_command then acc
    else acc ++ [{ id := chat.id, title := chatDisplayTitle chat,
                   type := chat.type, username := chat.username, source := source }]

/-- The candidate collection of one scan (`Array.from(chatMap.values())`,
lines 795-841). -/
def discoverCandidates (existingChatIds : List Int) (updates : List Update) :
    List DiscoveredChat :=
  updates.foldl (scanStep existingChatIds) []

/-- An update that would contribute a candidate for chat id `i` to a scan
against the known chats `existingChatIds`, independently of what was
already collected: it classifies to a chat carrying that id, the id is not
yet tracked, and the private-chat rule does not skip it.  Soundness: the
`chatMap.has` guard of the loop depends only on the id, so within one scan
the FIRST such event is the one that creates the candidate for `i`. -/
def qualifiesFor (existingChatIds : List Int) (i : Int) (u : Update) : Bool :=
  match classifyUpdate u with
  | none => false
  | some (chat, source) =>
    decide (chat.id = i ∧ chat.id ∉ existingChatIds ∧
      ¬(chat.type = "private" ∧ source ≠ Source.register_command))

/-- The candidate record an update's classification would put into the map. -/
def candidateOfUpdate (u : Update) : Option DiscoveredChat :=
  (classifyUpdate u).map (fun p =>
    { id := p.1.id, title := chatDisplayTitle p.1, type := p.1.type,
      username := p.1.username, source := p.2 })

/-- Liveness verification of the scan (lines 844-853): candidates whose
`getChat` probe fails are dropped. -/
def verifyCandidates (probe : Int → Bool) (cs : List DiscoveredChat) :
    List DiscoveredChat :=
  cs.filter (fun c => probe c.id)

/-! ## Chat registry refresh (`refreshChats`, lines 916-959) -/

/-- Fields of the `getChat` API result that `refreshChats` reads. -/
structure ChatApiInfo where
  title : Option String := none
  first_name : Option String := none

/-- The per-chat update of `refreshChats`: a successful `getChat` probe
refreshes title (`chatInfo.title || chatInfo.first_name || chat.title`) and
member count (kept when the count probe fails) and clears `botKicked`; a
failed probe returns `{...chat, botKicked: true}`. -/
def refreshOne (getChat : Int → Option ChatApiInfo) (getCount : Int → Option Int)
    (chat : Chat) : Chat :=
  match getChat chat.id with
  | some info =>
    let memberCount := match getCount chat.id with
      | some n => some n
      | none => chat.memberCount
    { chat with
      title := jsOrStr info.title (jsOrStr info.first_name chat.title)
      memberCount := memberCount
      botKicked := some false }
  | none => { chat with botKicked := some true }

/-- `refreshChats` (lines 916-959): `Promise.all(chats.map(...))` followed by
`setChats(updatedChats)`. -/
def refreshChats (getChat : Int → Option ChatApiInfo) (getCount : Int → Option Int)
    (chats : List Chat) : List Chat :=
  chats.map (refreshOne getChat getCount)

/-! ## Persistence round-trip (lines 128-136, 202-210, 230-245) -/

/-- JSON values as stored in the persistence tier. -/
inductive Json where
  | null
  | bool (b : Bool)
  | num (n : Int)
  | str (s : String)
  | arr (elems : List Json)
  | obj (fields : List (String × Json))

/-- Property lookup `j[key]` on an object value. -/
def Json.getField (j : Json) (key : String) : Option Json :=
  match j with
  | .obj fields => (fields.find? (fun f => f.1 = key)).map (fun f => f.2)
  | _ => none

/-- Serialization of the `type` field. -/
def ChatType.toStr : ChatType → String
  | .group => "group"
  | .supergroup => "supergroup"
  | .channel => "channel"
  | .private_ => "private"

/-- Reading a `type` string back (total; callers guard validity). -/
def chatTypeOfStr (s : String) : ChatType :=
  if s = "group" then .group
  else if s = "supergroup" then .supergroup
  else if s = "channel" then .channel
  else .private_

/-- `isValidChat` (lines 128-136): `id` is a number, `title` a string, and
`type` one of the four chat types. -/
def isValidChat (j : Json) : Bool :=
  (match j.getField "id" with | some (.num _) => true | _ => false) &&
  (match j.getField "title" with | some (.str _) => true | _ => false) &&
  (match j.getField "type" with
   | some (.str t) =>
     t = "group" || t = "supergroup" || t = "channel" || t = "private"
   | _ => false)

/-- `JSON.stringify` of one chat: optional fields are omitted when absent. -/
def encodeChat (c : Chat) : Json :=
  Json.obj
    ([("id", Json.num c.id), ("title", Json.str c.title),
      ("type", Json.str c.type.toStr)]
     ++ (match c.username with | some u => [("username", Json.str u)] | none => [])
     ++ (match c.memberCount with | some n => [("memberCount", Json.num n)] | none => [])
     ++ (match c.botKicked with | some b => [("botKicked", Json.bool b)] | none => []))

/-- The chat object a parsed JSON value denotes (the code uses the parsed
object directly after validation). -/
def decodeChat (j : Json) : Chat :=
  { id := match j.getField "id" with | some (.num n) => n | _ => 0
    title := match j.getField "title" with | some (.str s) => s | _ => ""
    type := match j.getField "type" with
      | some (.str s) => chatTypeOfStr s
      | _ => ChatType.group
    username := match j.getField "username" with | some (.str s) => some s | _ => none
    memberCount := match j.getField "memberCount" with | some (.num n) => some n | _ => none
    botKicked := match j.getField "botKicked" with | some (.bool b) => some b | _ => none }

/-- The load effect (lines 202-210): `setChats(parsed)` only when the parsed
value is an array all of whose entries pass `isValidChat`; otherwise the
registry stays at its initial empty value. -/
def loadChats (stored : List Json) : List Chat :=
  if stored.all isValidChat then stored.map decodeChat else []

/-- The save effect (lines 230-245): the stored array is the serialized
registry. -/
def saveChats (chats : List Chat) : List Json :=
  chats.map encodeChat

/-! ## `addChat` (lines 342-380) -/

/-- The API calls a UI action can issue, in order. -/
inductive ApiCall where
  | getChatByStr (chat_id : String)
  | getChatMemberCount (chat_id : Int)
deriving DecidableEq, Repr

/-- Fields of the `getChat` result that `addChat` reads. -/
structure GetChatResult where
  id : Int
  type : ChatType
  title : Option String := none
  first_name : Option String := none
  username : Option String := none

/-- Observable outcome of one `addChat` invocation. -/
structure AddChatOutcome where
  calls : List ApiCall
  chats : List Chat
  error : Option String

/-- `addChat` (lines 342-380): empty input returns immediately with no call;
otherwise `getChat` is called first, and only then is the duplicate check
`chats.some(c => c.id === chat.id)` performed; a non-duplicate new chat
gets a best-effort member count and is appended. -/
def addChat (newChatId : String) (chats : List Chat)
    (getChatResp : String → Option GetChatResult)
    (getCountResp : Int → Option Int) : AddChatOutcome :=
  if jsTrim newChatId = "" then
    { calls := [], chats := chats, error := none }
  else
    match getChatResp (jsTrim newChatId) with
    | none =>
      { calls := [ApiCall.getChatByStr (jsTrim newChatId)], chats := chats,
        error := some "Failed to add chat. Make sure the bot is a member." }
    | some chat =>
      if chats.any (fun c => c.id = chat.id) then
        { calls := [ApiCall.getChatByStr (jsTrim newChatId)], chats := chats,
          error := some "Chat already added" }
      else
        let base : Chat :=
          { id := chat.id
            title := jsOrStr chat.title (jsOrStr chat.first_name
              (jsOrStr chat.username ("Chat " ++ toString chat.id)))
            type := chat.type
            username := chat.username }
        let newChat := match getCountResp chat.id with
          | some n => { base with memberCount := some n }
          | none => base
        { calls := [ApiCall.getChatByStr (jsTrim newChatId),
                    ApiCall.getChatMemberCount chat.id],
          chats := chats ++ [newChat], error := none }

/-! ## Lemmas about batching and counters -/

theorem chunkList_flatten (n : Nat) (hn : n ≠ 0) (xs : List Int) :
    (chunkList n xs).flatten = xs := by
  induction xs using chunkList.induct n with
  | case1 xs h =>
    rcases h with h | h
    · simp [chunkList, h]
    · exact absurd h hn
  | case2 xs h ih =>
    rw [chunkList, dif_neg h]
    simp [ih]

theorem chunkList_length_le (n : Nat) (xs : List Int) :
    ∀ b ∈ chunkList n xs, b.length ≤ n := by
  induction xs using chunkList.induct n with
  | case1 xs h => simp [chunkList, h]
  | case2 xs h ih =>
    rw [chunkList, dif_neg h]
    intro b hb
    rcases hb with _ | hb
    · simp
    · exact ih b (by assumption)

theorem chunkList_count (n : Nat) (hn : n ≠ 0) (xs : List Int) :
    (chunkList n xs).length = (xs.length + n - 1) / n := by
  induction xs using chunkList.induct n with
  | case1 xs h =>
    rcases h with h | h
    · subst h
      rw [chunkList, dif_pos (Or.inl rfl)]
      simp only [List.length_nil]
      exact (Nat.div_eq_of_lt (by omega)).symm
    · exact absurd h hn
  | case2 xs h ih =>
    have h' := h
    push_neg at h'
    have hlen : 0 < xs.length := List.length_pos.mpr h'.1
    have hnpos : 0 < n := by omega
    rw [chunkList, dif_neg h]
    simp only [List.length_cons, ih, List.length_drop]
    rcases le_or_lt xs.length n with hle | hlt
    · have h1 : xs.length - n + n - 1 = n - 1 := by omega
      have h2 : (n - 1) / n = 0 := Nat.div_eq_of_lt (by omega)
      have h3 : xs.length + n - 1 = (xs.length - 1) + n := by omega
      rw [h1, h2, h3, Nat.add_div_right _ hnpos]
      have h4 : (xs.length - 1) / n = 0 := Nat.div_eq_of_lt (by omega)
      omega
    · have h3 : xs.length - n + n - 1 = (xs.length - 1 - n) + n := by omega
      have h4 : xs.length + n - 1 = (xs.length - 1) + n := by omega
      rw [h3, h4, Nat.add_div_right _ hnpos, Nat.add_div_right _ hnpos]
      conv_rhs => rw [show xs.length - 1 = (xs.length - 1 - n) + n from by omega,
        Nat.add_div_right _ hnpos]

theorem processBatch_eq (outcome : Int → Bool) (acc : Nat × Nat) (batch : List Int) :
    processBatch outcome acc batch =
      (acc.1 + batch.countP outcome, acc.2 + batch.countP (fun c => !outcome c)) := by
  induction batch generalizing acc with
  | nil => simp [processBatch]
  | cons x xs ih =>
    simp only [processBatch, List.foldl_cons] at *
    by_cases hx : outcome x <;>
      simp [hx, ih, List.countP_cons] <;> omega

theorem foldl_processBatch (outcome : Int → Bool) (bs : List (List Int))
    (acc : Nat × Nat) :
    bs.foldl (processBatch outcome) acc =
      (acc.1 + bs.flatten.countP outcome,
       acc.2 + bs.flatten.countP (fun c => !outcome c)) := by
  induction bs generalizing acc with
  | nil => simp
  | cons b bs ih =>
    simp only [List.foldl_cons, processBatch_eq, ih, List.flatten_cons,
      List.countP_append, Prod.mk.injEq]
    omega

theorem runBatches_eq (outcome : Int → Bool) (bs : List (List Int)) :
    runBatches outcome bs =
      (bs.flatten.countP outcome, bs.flatten.countP (fun c => !outcome c)) := by
  unfold runBatches
  rw [foldl_processBatch]
  simp

theorem countP_add_countP_not (p : Int → Bool) (l : List Int) :
    l.countP p + l.countP (fun c => !p c) = l.length := by
  induction l with
  | nil => simp
  | cons x xs ih =>
    by_cases hx : p x <;> simp [List.countP_cons, hx] <;> omega

/-- Claim C1: over a non-empty duplicate-free target set of size `N` with a
non-empty message, `broadcastMessage` forms exactly `⌈N / 30⌉` batches (the
integer `(N + 29) / 30`), each of at most 30 chats, attempts exactly one
`sendMessage` call per target chat, and finishes with `sent + failed = N`. -/
theorem c1_broadcast_batches_and_counters (message : String) (targets : List Int)
    (outcome : Int → Bool) (hmsg : jsTrim message ≠ "") (hne : targets ≠ [])
    (hnd : targets.Nodup) :
    (broadcastMessage message targets outcome).batches.length
        = (targets.length + BATCH_SIZE - 1) / BATCH_SIZE ∧
    (∀ b ∈ (broadcastMessage message targets outcome).batches,
      b.length ≤ BATCH_SIZE) ∧
    (broadcastMessage message targets outcome).calls = targets ∧
    (∀ c ∈ targets, (broadcastMessage message targets outcome).calls.count c = 1) ∧
    (broadcastMessage message targets outcome).sent
        + (broadcastMessage message targets outcome).failed = targets.length := by
  have hguard : ¬(jsTrim message = "" ∨ targets = []) := by
    push_neg
    exact ⟨hmsg, hne⟩
  have hb : broadcastMessage message targets outcome =
      { batches := chunkList BATCH_SIZE targets
        calls := (chunkList BATCH_SIZE targets).flatten
        sent := (runBatches outcome (chunkList BATCH_SIZE targets)).1
        failed := (runBatches outcome (chunkList BATCH_SIZE targets)).2
        started := true } := by
    unfold broadcastMessage
    rw [if_neg hguard]
  have hflat : (chunkList BATCH_SIZE targets).flatten = targets :=
    chunkList_flatten BATCH_SIZE (by decide) targets
  refine ⟨?_, ?_, ?_, ?_, ?_⟩
  · rw [hb]
    exact chunkList_count BATCH_SIZE (by decide) targets
  · rw [hb]
    exact chunkList_length_le BATCH_SIZE targets
  · rw [hb]
    exact hflat
  · intro c hc
    rw [hb]
    simp only
    rw [hflat]
    exact List.count_eq_one_of_mem hnd hc
  · rw [hb]
    simp only
    rw [runBatches_eq]
    simp only
    rw [hflat]
    exact countP_add_countP_not outcome targets

/-- Witness for C1 at a concrete broadcast of "hi" to three chats. -/
theorem c1_witness :
    (broadcastMessage "hi" [1, 2, 3] (fun _ => true)).batches.length
        = (([1, 2, 3] : List Int).length + BATCH_SIZE - 1) / BATCH_SIZE ∧
    (∀ b ∈ (broadcastMessage "hi" [1, 2, 3] (fun _ => true)).batches,
      b.length ≤ BATCH_SIZE) ∧
    (broadcastMessage "hi" [1, 2, 3] (fun _ => true)).calls = [1, 2, 3] ∧
    (∀ c ∈ ([1, 2, 3] : List Int),
      (broadcastMessage "hi" [1, 2, 3] (fun _ => true)).calls.count c = 1) ∧
    (broadcastMessage "hi" [1, 2, 3] (fun _ => true)).sent
        + (broadcastMessage "hi" [1, 2, 3] (fun _ => true)).failed
        = ([1, 2, 3] : List Int).length :=
  c1_broadcast_batches_and_counters "hi" [1, 2, 3] (fun _ => true)
    (by decide) (by decide) (by decide)

/-! ## Claim C3: activity log retention -/

/-- A concrete log entry. -/
def logEntryA : LogEntry :=
  { message := "m", type := LogType.info, timestamp := "t" }

/-- Counterexample to C3 as stated: at a log already holding 200 entries,
`addLog` produces 201 entries — the length does exceed 200. -/
theorem c3_counterexample :
    ¬((addLog (List.replicate 200 logEntryA) logEntryA).length ≤ 200) := by
  simp only [addLog, jsSliceLast, List.length_append, List.length_drop,
    List.length_replicate, List.length_singleton]
  omega

/-- Claim C3 (amended): `addLog` keeps at most the last 200 previous entries
plus the appended one — the log length is `min(previous, 200) + 1`, never
above 201 — and the retained entries are the most recent ones: the entries
before the appended one form a suffix of the previous log, and the appended
entry is last. -/
theorem c3_addLog_retention (prev : List LogEntry) (entry : LogEntry) :
    (addLog prev entry).length = min prev.length 200 + 1 ∧
    (addLog prev entry).length ≤ 201 ∧
    (addLog prev entry).dropLast.IsSuffix prev ∧
    (addLog prev entry).getLast? = some entry := by
  refine ⟨?_, ?_, ?_, ?_⟩
  · simp only [addLog, jsSliceLast, List.length_append, List.length_drop,
      List.length_singleton]
    omega
  · simp only [addLog, jsSliceLast, List.length_append, List.length_drop,
      List.length_singleton]
    omega
  · unfold addLog jsSliceLast
    rw [List.dropLast_concat]
    exact List.drop_suffix _ _
  · unfold addLog
    exact List.getLast?_concat _

/-! ## Claim C2: list deletion cascade -/

/-- Four lists: "A" a root, "B" and "C" direct children of "A", and "D" a
child of "B" (a grandchild of "A"). -/
def demoLists : List ChatList :=
  [ { id := "A", name := "A", color := "c", icon := "i", chatIds := [1],
      parentId := none, stats := { sent := 0, failed := 0, lastBroadcast := none } },
    { id := "B", name := "B", color := "c", icon := "i", chatIds := [2],
      parentId := some "A", stats := { sent := 0, failed := 0, lastBroadcast := none } },
    { id := "C", name := "C", color := "c", icon := "i", chatIds := [3],
      parentId := some "A", stats := { sent := 0, failed := 0, lastBroadcast := none } },
    { id := "D", name := "D", color := "c", icon := "i", chatIds := [4],
      parentId := some "B", stats := { sent := 0, failed := 0, lastBroadcast := none } } ]

/-- Counterexample to C2 as stated: deleting "A" (which has two direct
children "B", "C" and one grandchild "D") leaves the grandchild "D" in the
collection and in the selected set — not all four are removed. -/
theorem c2_counterexample :
    ((deleteList demoLists ["D"] ["C"] "A").1.map (fun l => l.id) = ["D"]) ∧
    (deleteList demoLists ["D"] ["C"] "A").2.1 = ["D"] := by
  decide

/-- Claim C2 (amended): `deleteList` removes exactly the deleted list and its
DIRECT children (lists whose `parentId` is the deleted id) from the
collection and from the selected and excluded sets; deeper descendants are
not removed. -/
theorem c2_deleteList_direct_children (lists : List ChatList)
    (sel exc : List String) (listId : String) :
    (∀ l, l ∈ (deleteList lists sel exc listId).1 ↔
      l ∈ lists ∧ l.id ≠ listId ∧
        l.id ∉ (lists.filter (fun x => x.parentId = some listId)).map
          (fun x => x.id)) ∧
    (∀ i, i ∈ (deleteList lists sel exc listId).2.1 ↔
      i ∈ sel ∧ i ≠ listId ∧
        i ∉ (lists.filter (fun x => x.parentId = some listId)).map
          (fun x => x.id)) ∧
    (∀ i, i ∈ (deleteList lists sel exc listId).2.2 ↔
      i ∈ exc ∧ i ≠ listId ∧
        i ∉ (lists.filter (fun x => x.parentId = some listId)).map
          (fun x => x.id)) := by
  refine ⟨?_, ?_, ?_⟩ <;> intro x <;>
    simp [deleteList, List.mem_filter, and_assoc]

/-! ## Claim C4: validation before network calls -/

/-- A tracked chat with id 5. -/
def chatFive : Chat := { id := 5, title := "five", type := ChatType.group }

/-- A `getChat` response resolving to the same id 5. -/
def gotFive : GetChatResult := { id := 5, type := ChatType.group, title := some "five" }

/-- Counterexample to C4 as stated: adding a chat whose id is already
tracked is rejected only AFTER a `getChat` network call has been issued —
the call list of the rejected operation is not empty. -/
theorem c4_counterexample :
    (addChat "5" [chatFive] (fun _ => some gotFive) (fun _ => none)).calls ≠ [] ∧
    (addChat "5" [chatFive] (fun _ => some gotFive) (fun _ => none)).error
      = some "Chat already added" := by
  constructor
  · decide
  · decide

/-- Claim C4 (amended): broadcasting with an empty (after trim) message or
an empty selection issues no API call at all, and adding with an empty
input issues no call; adding a chat whose resolved id is already tracked is
rejected — nothing is added — after exactly the one `getChat` lookup used
to resolve the input, with no further call. -/
theorem c4_validation_rejections :
    (∀ message targets outcome, (jsTrim message = "" ∨ targets = []) →
       (broadcastMessage message targets outcome).calls = [] ∧
       (broadcastMessage message targets outcome).started = false) ∧
    (∀ newChatId chats resp countResp, jsTrim newChatId = "" →
       (addChat newChatId chats resp countResp).calls = [] ∧
       (addChat newChatId chats resp countResp).chats = chats) ∧
    (∀ newChatId chats resp countResp chat, jsTrim newChatId ≠ "" →
       resp (jsTrim newChatId) = some chat →
       chats.any (fun c => c.id = chat.id) = true →
       (addChat newChatId chats resp countResp).calls
         = [ApiCall.getChatByStr (jsTrim newChatId)] ∧
       (addChat newChatId chats resp countResp).chats = chats ∧
       (addChat newChatId chats resp countResp).error = some "Chat already added") := by
  refine ⟨?_, ?_, ?_⟩
  · intro message targets outcome h
    unfold broadcastMessage
    rw [if_pos h]
    exact ⟨rfl, rfl⟩
  · intro newChatId chats resp countResp h
    unfold addChat
    rw [if_pos h]
    exact ⟨rfl, rfl⟩
  · intro newChatId chats resp countResp chat hne hresp hdup
    unfold addChat
    rw [if_neg hne, hresp]
    simp [hdup]

/-- Witness for C4 at concrete inputs: an empty-message broadcast issues no
call, and the duplicate add of chat 5 issues exactly the `getChat` lookup. -/
theorem c4_witness :
    ((broadcastMessage "" [1] (fun _ => true)).calls = [] ∧
     (broadcastMessage "" [1] (fun _ => true)).started = false) ∧
    ((addChat "5" [chatFive] (fun _ => some gotFive) (fun _ => none)).calls
       = [ApiCall.getChatByStr (jsTrim "5")] ∧
     (addChat "5" [chatFive] (fun _ => some gotFive) (fun _ => none)).chats
       = [chatFive] ∧
     (addChat "5" [chatFive] (fun _ => some gotFive) (fun _ => none)).error
       = some "Chat already added") :=
  ⟨c4_validation_rejections.1 "" [1] (fun _ => true) (by left; decide),
   c4_validation_rejections.2.2 "5" [chatFive] (fun _ => some gotFive)
     (fun _ => none) gotFive (by decide) rfl (by decide)⟩

/-! ## Claim C5: persistence round-trip -/

theorem encodeChat_valid (c : Chat) : isValidChat (encodeChat c) = true := by
  rcases c with ⟨cid, ctitle, cty, cu, cm, cb⟩
  cases cty <;> rfl

theorem decode_encode (c : Chat) : decodeChat (encodeChat c) = c := by
  rcases c with ⟨cid, ctitle, cty, cu, cm, cb⟩
  cases cty <;> cases cu <;> cases cm <;> cases cb <;> rfl

/-- Claim C5: a chat registry saved to the persistence format always passes
structural validation and reloads to the very same registry (in particular
the same ids, titles and types); and a stored array with at least one
structurally invalid entry is rejected wholesale — the load falls back to
the empty collection, never a partial one. -/
theorem c5_persistence_roundtrip :
    (∀ chats : List Chat,
       (saveChats chats).all isValidChat = true ∧
       loadChats (saveChats chats) = chats) ∧
    (∀ stored : List Json, stored.all isValidChat = false →
       loadChats stored = []) := by
  constructor
  · intro chats
    have hall : (saveChats chats).all isValidChat = true := by
      rw [List.all_eq_true]
      intro j hj
      rw [saveChats, List.mem_map] at hj
      obtain ⟨c, _, rfl⟩ := hj
      exact encodeChat_valid c
    refine ⟨hall, ?_⟩
    unfold loadChats
    rw [hall]
    unfold saveChats
    rw [if_pos rfl, List.map_map]
    calc chats.map (decodeChat ∘ encodeChat)
        = chats.map id := List.map_congr_left (fun c _ => decode_encode c)
      _ = chats := List.map_id chats
  · intro stored h
    unfold loadChats
    rw [h]
    simp

/-- Witness for C5: the one-entry stored array `[null]` is invalid and loads
to the empty registry. -/
theorem c5_witness : loadChats [Json.null] = [] :=
  c5_persistence_roundtrip.2 [Json.null] rfl

/-! ## Claims C6 and C7: discovery scan -/

theorem scanStep_ids_nodup (existing : List Int) (u : Update)
    (acc : List DiscoveredChat) (h : (acc.map (fun c => c.id)).Nodup) :
    ((scanStep existing acc u).map (fun c => c.id)).Nodup := by
  unfold scanStep
  cases hcl : classifyUpdate u with
  | none => exact h
  | some p =>
    obtain ⟨chat, source⟩ := p
    dsimp only
    by_cases h1 : chat.id ∈ existing ∨ acc.any (fun c => c.id = chat.id)
    · rw [if_pos h1]
      exact h
    · rw [if_neg h1]
      by_cases h2 : chat.type = "private" ∧ source ≠ Source.register_command
      · rw [if_pos h2]
        exact h
      · rw [if_neg h2]
        push_neg at h1
        have hnotmem : chat.id ∉ acc.map (fun c => c.id) := by
          intro hm
          rw [List.mem_map] at hm
          obtain ⟨c, hc, hid⟩ := hm
          have hany : acc.any (fun c => c.id = chat.id) = true := by
            rw [List.any_eq_true]
            exact ⟨c, hc, by simp [hid]⟩
          exact h1.2 hany
        simp only [List.map_append, List.map_cons, List.map_nil]
        rw [List.nodup_append]
        refine ⟨h, List.nodup_singleton _, ?_⟩
        intro a ha hb
        simp only [List.mem_singleton] at hb
        subst hb
        exact hnotmem ha

theorem discoverCandidates_ids_nodup (existing : List Int) (updates : List Update) :
    ((discoverCandidates existing updates).map (fun c => c.id)).Nodup := by
  suffices h : ∀ acc : List DiscoveredChat, (acc.map (fun c => c.id)).Nodup →
      ((updates.foldl (scanStep existing) acc).map (fun c => c.id)).Nodup by
    exact h [] (by simp)
  induction updates with
  | nil =>
    intro acc h
    exact h
  | cons u us ih =>
    intro acc h
    exact ih _ (scanStep_ids_nodup existing u acc h)

theorem findFirst_append {α : Type} (l₁ l₂ : List α) (p : α → Bool) :
    (l₁ ++ l₂).find? p =
      match l₁.find? p with
      | some c => some c
      | none => l₂.find? p := by
  induction l₁ with
  | nil => simp
  | cons x xs ih =>
    by_cases hx : p x = true
    · rw [List.cons_append, List.find?_cons_of_pos _ hx, List.find?_cons_of_pos _ hx]
    · rw [List.cons_append, List.find?_cons_of_neg _ hx, List.find?_cons_of_neg _ hx, ih]

theorem foldl_scanStep_find (existing : List Int) (i : Int) (updates : List Update) :
    ∀ acc : List DiscoveredChat,
      (updates.foldl (scanStep existing) acc).find? (fun c => c.id = i)
        = (match acc.find? (fun c => c.id = i) with
           | some c => some c
           | none =>
             (updates.find? (qualifiesFor existing i)).bind candidateOfUpdate) := by
  induction updates with
  | nil =>
    intro acc
    rw [List.foldl_nil, List.find?_nil]
    cases hf : acc.find? (fun c => c.id = i) <;> rfl
  | cons u us ih =>
    intro acc
    rw [List.foldl_cons, ih (scanStep existing acc u)]
    cases hcl : classifyUpdate u with
    | none =>
      have hq : qualifiesFor existing i u = false := by
        unfold qualifiesFor
        rw [hcl]
      have hs : scanStep existing acc u = acc := by
        unfold scanStep
        rw [hcl]
      rw [hs, List.find?_cons_of_neg _ (by simp [hq])]
    | some p =>
      obtain ⟨chat, source⟩ := p
      have hq : qualifiesFor existing i u =
          decide (chat.id = i ∧ chat.id ∉ existing ∧
            ¬(chat.type = "private" ∧ source ≠ Source.register_command)) := by
        unfold qualifiesFor
        rw [hcl]
      cases hf : acc.find? (fun c => c.id = i) with
      | some c =>
        have hres : (scanStep existing acc u).find? (fun c => c.id = i) = some c := by
          unfold scanStep
          rw [hcl]
          dsimp only
          split
          · exact hf
          · split
            · exact hf
            · rw [findFirst_append, hf]
        rw [hres]
      | none =>
        have hnone := List.find?_eq_none.mp hf
        have hanyi : acc.any (fun c => c.id = i) = false := by
          cases hA : acc.any (fun c => c.id = i)
          · rfl
          · rw [List.any_eq_true] at hA
            obtain ⟨x, hx, hpx⟩ := hA
            exact absurd hpx (hnone x hx)
        by_cases h1 : chat.id ∈ existing ∨ acc.any (fun c => c.id = chat.id)
        · have hs : scanStep existing acc u = acc := by
            unfold scanStep
            rw [hcl]
            dsimp only
            rw [if_pos h1]
          have hqf : qualifiesFor existing i u = false := by
            rw [hq]
            simp only [decide_eq_false_iff_not]
            rintro ⟨hcieq, hnotin, _⟩
            rcases h1 with h1 | h1
            · exact hnotin h1
            · rw [hcieq] at h1
              rw [hanyi] at h1
              exact Bool.false_ne_true h1
          rw [hs, hf, List.find?_cons_of_neg _ (by simp [hqf])]
        · by_cases h2 : chat.type = "private" ∧ source ≠ Source.register_command
          · have hs : scanStep existing acc u = acc := by
              unfold scanStep
              rw [hcl]
              dsimp only
              rw [if_neg h1, if_pos h2]
            have hqf : qualifiesFor existing i u = false := by
              rw [hq]
              simp only [decide_eq_false_iff_not]
              rintro ⟨_, _, hnp⟩
              exact hnp h2
            rw [hs, hf, List.find?_cons_of_neg _ (by simp [hqf])]
          · have hs : scanStep existing acc u = acc ++
                [{ id := chat.id, title := chatDisplayTitle chat, type := chat.type,
                   username := chat.username, source := source }] := by
              unfold scanStep
              rw [hcl]
              dsimp only
              rw [if_neg h1, if_neg h2]
            push_neg at h1
            by_cases hci : chat.id = i
            · have hqt : qualifiesFor existing i u = true := by
                rw [hq, decide_eq_true_eq]
                exact ⟨hci, h1.1, h2⟩
              have hcand : candidateOfUpdate u = some
                  { id := chat.id, title := chatDisplayTitle chat, type := chat.type,
                    username := chat.username, source := source } := by
                unfold candidateOfUpdate
                rw [hcl]
                rfl
              rw [hs, findFirst_append, hf,
                List.find?_cons_of_pos _ (by simp [hci]),
                List.find?_cons_of_pos _ (by simp [hqt])]
              rw [Option.some_bind, hcand]
            · have hqf : qualifiesFor existing i u = false := by
                rw [hq]
                simp only [decide_eq_false_iff_not]
                rintro ⟨hcieq, _, _⟩
                exact hci hcieq
              rw [hs, findFirst_append, hf,
                List.find?_cons_of_neg _ (by simp [hci]), List.find?_nil,
                List.find?_cons_of_neg _ (by simp [hqf])]

/-- Claim C6: within one discovery scan at most one candidate is collected
per chat id (the candidate ids are duplicate-free for every input); for
every scan and every chat id the candidate collected for that id is exactly
the one built from the FIRST qualifying event for it in the update batch
(first-seen-wins, `none` when no event qualifies); and on the two events
`{chat 101, "/register"}` then `{chat 101, "hello"}` the single candidate
for 101 carries `register_command`. -/
theorem c6_one_candidate_first_seen_wins :
    (∀ (existing : List Int) (updates : List Update),
      ((discoverCandidates existing updates).map (fun c => c.id)).Nodup) ∧
    (∀ (existing : List Int) (updates : List Update) (i : Int),
      (discoverCandidates existing updates).find? (fun c => c.id = i)
        = (updates.find? (qualifiesFor existing i)).bind candidateOfUpdate) ∧
    discoverCandidates []
      [Update.message { id := 101, type := "group", title := some "G" } (some "/register"),
       Update.message { id := 101, type := "group", title := some "G" } (some "hello")]
      = [{ id := 101, title := "G", type := "group", username := none,
           source := Source.register_command }] := by
  refine ⟨fun existing updates => discoverCandidates_ids_nodup existing updates,
    ?_, by decide⟩
  intro existing updates i
  unfold discoverCandidates
  rw [foldl_scanStep_find existing i updates [], List.find?_nil]

theorem scanStep_no_candidate (existing : List Int) (acc : List DiscoveredChat)
    (chat : RawChat) (text : Option String) (st : Option String)
    (hpriv : chat.type = "private")
    (hreg : jsStartsWith (jsToLower (text.getD "")) "/register" = false)
    (hst : st ≠ some "member" ∧ st ≠ some "administrator") :
    scanStep existing acc (Update.message chat text) = acc ∧
    scanStep existing acc (Update.my_chat_member chat st) = acc := by
  constructor
  · unfold scanStep classifyUpdate
    simp only [hreg, Bool.false_eq_true, if_false]
    by_cases h1 : chat.id ∈ existing ∨ acc.any (fun c => c.id = chat.id)
    · rw [if_pos h1]
    · rw [if_neg h1, if_pos ⟨hpriv, by simp⟩]
  · unfold scanStep classifyUpdate
    have hcond : ¬(st = some "member" ∨ st = some "administrator") := by
      rintro (h | h)
      exacts [hst.1 h, hst.2 h]
    dsimp only
    rw [if_neg hcond]

/-- Claim C7: a private-chat message event whose text does not begin with
`/register` contributes no candidate to the scan, and a membership-change
event whose new status is neither `member` nor `administrator` (e.g.
`left`) contributes no candidate: inserting either event anywhere in the
update batch leaves the scan result unchanged. -/
theorem c7_no_candidate_private_or_left (existing : List Int)
    (us1 us2 : List Update) (chat : RawChat) (text : Option String)
    (st : Option String) (hpriv : chat.type = "private")
    (hreg : jsStartsWith (jsToLower (text.getD "")) "/register" = false)
    (hst : st ≠ some "member" ∧ st ≠ some "administrator") :
    discoverCandidates existing (us1 ++ Update.message chat text :: us2)
      = discoverCandidates existing (us1 ++ us2) ∧
    discoverCandidates existing (us1 ++ Update.my_chat_member chat st :: us2)
      = discoverCandidates existing (us1 ++ us2) := by
  unfold discoverCandidates
  constructor
  · rw [List.foldl_append, List.foldl_append, List.foldl_cons,
      (scanStep_no_candidate existing _ chat text st hpriv hreg hst).1]
  · rw [List.foldl_append, List.foldl_append, List.foldl_cons,
      (scanStep_no_candidate existing _ chat text st hpriv hreg hst).2]

/-- A private chat as carried by a discovery event. -/
def rawChatP : RawChat := { id := 7, type := "private", username := some "P" }

/-- Witness for C7: a private chat messaging "hello" and a membership change
to "left" both leave the scan result unchanged. -/
theorem c7_witness :
    discoverCandidates [] ([] ++ Update.message rawChatP (some "hello") :: [])
      = discoverCandidates [] ([] ++ []) ∧
    discoverCandidates [] ([] ++ Update.my_chat_member rawChatP (some "left") :: [])
      = discoverCandidates [] ([] ++ []) :=
  c7_no_candidate_private_or_left [] [] [] rawChatP (some "hello") (some "left")
    rfl (by decide) (by decide)

/-! ## Claim C8: list selection with exclusion -/

theorem mem_setInsert (s : List Int) (x y : Int) :
    y ∈ setInsert s x ↔ y ∈ s ∨ y = x := by
  unfold setInsert
  split
  · rename_i hx
    constructor
    · exact Or.inl
    · rintro (h | rfl)
      exacts [h, hx]
  · simp [List.mem_append]

theorem mem_foldl_setInsert (l acc : List Int) (y : Int) :
    y ∈ l.foldl setInsert acc ↔ y ∈ acc ∨ y ∈ l := by
  induction l generalizing acc with
  | nil => simp
  | cons x xs ih =>
    rw [List.foldl_cons, ih, mem_setInsert]
    simp [or_assoc]

theorem mem_foldl_setDelete (l acc : List Int) (y : Int) :
    y ∈ l.foldl (fun s x => s.filter (fun z => z ≠ x)) acc ↔
      y ∈ acc ∧ y ∉ l := by
  induction l generalizing acc with
  | nil => simp
  | cons x xs ih =>
    rw [List.foldl_cons, ih]
    simp only [List.mem_filter, List.mem_cons, decide_eq_true_eq]
    tauto

/-- Claim C8: with list `idA` selected and a descendant list `idD` excluded,
the resolved target set is exactly `idA`'s transitively resolved chat ids
minus `idD`'s transitively resolved chat ids — only `idD`'s ids are removed
and every other id of `idA` stays. -/
theorem c8_exclusion_removes_descendant_ids (lists : List ChatList)
    (fuel dfuel : Nat) (idA idD : String) (x : Int)
    (hdesc : isDescendantOf lists dfuel idD idA = true) :
    x ∈ getChatsFromLists lists [idA] [idD] fuel ↔
      x ∈ getAllChatIds lists fuel idA ∧ x ∉ getAllChatIds lists fuel idD := by
  unfold getChatsFromLists
  simp only [List.foldl_cons, List.foldl_nil]
  rw [mem_foldl_setDelete, mem_foldl_setInsert]
  simp

/-- Two lists: "A" a root holding chats 1 and 2, and "D" a child of "A"
holding chat 2. -/
def c8Lists : List ChatList :=
  [ { id := "A", name := "A", color := "c", icon := "i", chatIds := [1, 2],
      parentId := none, stats := { sent := 0, failed := 0, lastBroadcast := none } },
    { id := "D", name := "D", color := "c", icon := "i", chatIds := [2],
      parentId := some "A", stats := { sent := 0, failed := 0, lastBroadcast := none } } ]

/-- Witness for C8: selecting "A" and excluding its child "D" keeps chat 1
exactly when it is in "A"'s resolution and outside "D"'s. -/
theorem c8_witness :
    1 ∈ getChatsFromLists c8Lists ["A"] ["D"] 2 ↔
      1 ∈ getAllChatIds c8Lists 2 "A" ∧ 1 ∉ getAllChatIds c8Lists 2 "D" :=
  c8_exclusion_removes_descendant_ids c8Lists 2 1 "A" "D" 1 (by decide)

/-! ## Claim C9: registry refresh frame conditions -/

/-- Claim C9: `refreshChats` maps every chat in place — the id sequence is
unchanged, so no chat is dropped or added; a chat whose `getChat` probe
fails becomes `{...chat, botKicked: true}` with every other field
untouched; a chat whose probe succeeds gets `botKicked` cleared, its title
and member count refreshed, and id/type/username untouched. -/
theorem c9_refresh_frame (getChat : Int → Option ChatApiInfo)
    (getCount : Int → Option Int) (chats : List Chat) :
    refreshChats getChat getCount chats = chats.map (refreshOne getChat getCount) ∧
    (refreshChats getChat getCount chats).map (fun c => c.id)
      = chats.map (fun c => c.id) ∧
    (∀ c ∈ chats, getChat c.id = none →
      refreshOne getChat getCount c = { c with botKicked := some true }) ∧
    (∀ c ∈ chats, ∀ info, getChat c.id = some info →
      (refreshOne getChat getCount c).botKicked = some false ∧
      (refreshOne getChat getCount c).id = c.id ∧
      (refreshOne getChat getCount c).type = c.type ∧
      (refreshOne getChat getCount c).username = c.username ∧
      (refreshOne getChat getCount c).title
        = jsOrStr info.title (jsOrStr info.first_name c.title) ∧
      (refreshOne getChat getCount c).memberCount
        = (match getCount c.id with | some n => some n | none => c.memberCount)) := by
  refine ⟨rfl, ?_, ?_, ?_⟩
  · unfold refreshChats
    rw [List.map_map]
    apply List.map_congr_left
    intro c _
    show (refreshOne getChat getCount c).id = c.id
    unfold refreshOne
    cases h : getChat c.id
    · rfl
    · rfl
  · intro c _ h
    unfold refreshOne
    rw [h]
  · intro c _ info h
    unfold refreshOne
    rw [h]
    exact ⟨rfl, rfl, rfl, rfl, rfl, rfl⟩

/-- A `getChat` result carrying only a title. -/
def infoB : ChatApiInfo := { title := some "B2" }

/-- Witness for C9: the probe failing on chat 5 only flips `botKicked`;
the probe succeeding clears it. -/
theorem c9_witness :
    refreshOne (fun _ => none) (fun _ => none) chatFive
      = { chatFive with botKicked := some true } ∧
    (refreshOne (fun _ => some infoB) (fun _ => none) chatFive).botKicked
      = some false :=
  ⟨(c9_refresh_frame (fun _ => none) (fun _ => none) [chatFive]).2.2.1 chatFive
      (List.mem_singleton.mpr rfl) rfl,
   ((c9_refresh_frame (fun _ => some infoB) (fun _ => none) [chatFive]).2.2.2 chatFive
      (List.mem_singleton.mpr rfl) infoB rfl).1⟩

/-! ## Claim C10: per-list stats attribution -/

/-- Claim C10: after a completed broadcast over `chatIds` with overall
counts `(failed, total)`, every list is updated in place; a list whose
`chatIds` meet the attempted set gets, for `attempted` the size of that
intersection, `failedDelta = round(attempted * failed / total)` (`round`
being the nearest integer, halves up — the bounds conjunct pins this down)
and `sentDelta = attempted - failedDelta` added to its cumulative stats and
`lastBroadcast` set to the completion timestamp; a list with no
intersection is left entirely unchanged. -/
theorem c10_list_stats_update (chatIds : List Int) (failed total : Nat)
    (now : String) (lists : List ChatList) (htot : 0 < total) :
    updateAllListStats chatIds failed total now lists
      = lists.map (updateListStats chatIds failed total now) ∧
    (∀ q : ℚ, (q - 1 / 2 : ℚ) < (jsMathRound q : ℚ) ∧ ((jsMathRound q : ℚ) ≤ q + 1 / 2)) ∧
    (∀ l ∈ lists, ∀ attempted : Int,
      attempted = ((chatIds.filter (fun i => i ∈ l.chatIds)).length : Int) →
      (attempted = 0 → updateListStats chatIds failed total now l = l) ∧
      (0 < attempted →
        updateListStats chatIds failed total now l =
          { l with stats :=
            { sent := l.stats.sent +
                (attempted - jsMathRound ((attempted : ℚ) * ((failed : ℚ) / (total : ℚ))))
              failed := l.stats.failed
                + jsMathRound ((attempted : ℚ) * ((failed : ℚ) / (total : ℚ)))
              lastBroadcast := some now } })) := by
  refine ⟨rfl, ?_, ?_⟩
  · intro q
    unfold jsMathRound
    constructor
    · have h := Int.lt_floor_add_one (q + 1 / 2)
      push_cast at h ⊢
      linarith
    · have h := Int.floor_le (q + 1 / 2)
      push_cast at h ⊢
      linarith
  · intro l _ attempted ha
    constructor
    · intro h0
      unfold updateListStats
      rw [if_neg (by omega)]
    · intro hpos
      unfold updateListStats
      rw [if_pos (by omega)]
      subst ha
      rfl

/-- A list holding chats 1 and 2 with prior stats. -/
def listX : ChatList :=
  { id := "X", name := "X", color := "c", icon := "i", chatIds := [1, 2],
    parentId := none, stats := { sent := 10, failed := 2, lastBroadcast := none } }

/-- Witness for C10: broadcasting to chats 1, 2, 3 with 1 failure out of 3
updates `listX` (intersection size 2) by `failedDelta = round(2/3) = 1` and
`sentDelta = 1`. -/
theorem c10_witness :
    updateListStats [1, 2, 3] 1 3 "t0" listX
      = { listX with stats :=
          { sent := 11, failed := 3, lastBroadcast := some "t0" } } := by
  have h := ((c10_list_stats_update [1, 2, 3] 1 3 "t0" [listX] (by decide)).2.2
    listX (List.mem_singleton.mpr rfl) 2 (by decide)).2 (by decide)
  have hval : (((2 : Int) : ℚ) * (((1 : Nat) : ℚ) / ((3 : Nat) : ℚ)) + 1 / 2 : ℚ)
      = 7 / 6 := by
    push_cast
    norm_num
  have hr : jsMathRound (((2 : Int) : ℚ) * (((1 : Nat) : ℚ) / ((3 : Nat) : ℚ))) = 1 := by
    unfold jsMathRound
    rw [hval, Int.floor_eq_iff]
    norm_num
  rw [h, hr]
  decide

end TgBroadcaster
